import Mathlib

/-!
Verification of the ISA memory-expansion board emulation (`src/device/isamem.c`):
the layout builder (`isamem_init`), the EMS viewport controller I/O handlers
(`ems_read` / `ems_write`), and the RAM translators
(`ram_readb/w`, `ram_writeb/w`, `ems_readb/w`, `ems_writeb/w`).

Machine integers are modelled as `Nat` with explicit `% 2^w` at the points where
the C code can overflow or truncate (`uint16_t total_size`/`base_addr`, the
`uint32_t` cursor arithmetic `k -= tot`, the `uint16_t` I/O-port parameter).
The RAM buffer is a total function `Nat → Nat` holding byte values; pointers
into it (`dev->ems[i].addr`, the carve cursor `ptr`) are byte offsets.
Host mem-mapping handles are records carrying the registration base/size, the
enable state toggled by `mem_mapping_enable`/`mem_mapping_disable`, and the
backing offset set by `mem_mapping_add`/`mem_mapping_set_exec`.
-/

namespace Isamem

/-- `RAM_TOPMEM` (640 << 10): end of low memory. -/
def RAM_TOPMEM : Nat := 655360

/-- `RAM_UMAMEM` (384 << 10): upper memory block. -/
def RAM_UMAMEM : Nat := 393216

/-- `EMS_MAXSIZE` (2048 << 10): max EMS memory size. -/
def EMS_MAXSIZE : Nat := 2097152

/-- `EMS_PGSIZE` (16 << 10): one page is this big. -/
def EMS_PGSIZE : Nat := 16384

/-- `EMS_MAXPAGE`: number of viewport pages. -/
def EMS_MAXPAGE : Nat := 4

/-- A host memory mapping handle (`mem_mapping_t`), reduced to the facts the
    device code establishes: whether `mem_mapping_add` was called (`reg`),
    whether the mapping is currently enabled, its guest base address and size,
    and the backing/exec offset into the board RAM. -/
structure MemMapping where
  reg : Bool := false
  enabled : Bool := false
  base : Nat := 0
  size : Nat := 0
  exec : Nat := 0
deriving Repr, DecidableEq

/-- One EMS viewport register set (`emsreg_t`): `enabled` is the truthiness of
    the stored `int8_t` (set from `val & 0x80`), `page` the stored page number,
    `frame` the board-variant frame register, `addrOff` the byte offset into
    board RAM corresponding to `uint8_t *addr`, and `mapping` the 16 KB window
    mapping for this viewport. -/
structure EmsReg where
  enabled : Bool := false
  page : Nat := 0
  frame : Nat := 0
  addrOff : Nat := 0
  mapping : MemMapping := {}
deriving Repr, DecidableEq

/-- The board instance (`memdev_t`). The packed `flags` byte is modelled as the
    four named bits the code uses (`FLAG_CONFIG`, `FLAG_WIDE`, `FLAG_FAST`,
    `FLAG_EMS`). `ram` is the zero-initialised byte buffer. -/
structure MemDev where
  flag_config : Bool := false
  flag_wide : Bool := false
  flag_fast : Bool := false
  flag_ems : Bool := false
  total_size : Nat := 0
  base_addr : Nat := 0
  start_addr : Nat := 0
  frame_addr : Nat := 0
  ems_size : Nat := 0
  ems_pages : Nat := 0
  ems_start : Nat := 0
  ram : Nat → Nat := fun _ => 0
  low_mapping : MemMapping := {}
  high_mapping : MemMapping := {}
  remapped : MemMapping := {}
  ems : Fin 4 → EmsReg := fun _ => {}

/-- Viewport index decode `(addr & 0xffff) / EMS_PGSIZE`, used both by the
    paged-RAM handlers (on the guest address) and by the I/O handlers (on the
    16-bit port number). The result is always below `EMS_MAXPAGE = 4`. -/
def emsVpage (addr : Nat) : Fin 4 := ⟨addr % 65536 / 16384, by omega⟩

/-- `ram_readb`: read one byte from onboard RAM at `dev->ram + (addr - map->base)`. -/
def ram_readb (dev : MemDev) (map : MemMapping) (addr : Nat) : Nat :=
  dev.ram (addr - map.base)

/-- `ram_readw`: read one (little-endian) word from onboard RAM at
    `dev->ram + (addr - map->base)`. -/
def ram_readw (dev : MemDev) (map : MemMapping) (addr : Nat) : Nat :=
  dev.ram (addr - map.base) + 256 * dev.ram (addr - map.base + 1)

/-- `ram_writeb`: write one byte to onboard RAM at `dev->ram + (addr - map->base)`. -/
def ram_writeb (dev : MemDev) (map : MemMapping) (addr val : Nat) : MemDev :=
  { dev with ram := fun a => if a = addr - map.base then val % 256 else dev.ram a }

/-- `ram_writew`: write one (little-endian) word to onboard RAM at
    `dev->ram + (addr - map->base)`. -/
def ram_writew (dev : MemDev) (map : MemMapping) (addr val : Nat) : MemDev :=
  { dev with ram := fun a =>
      if a = addr - map.base then val % 256
      else if a = addr - map.base + 1 then val / 256 % 256
      else dev.ram a }

/-- `ems_readb`: read one byte from onboard paged RAM at
    `dev->ems[vpage].addr + (addr - map->base)` with
    `vpage = (addr & 0xffff) / EMS_PGSIZE`. -/
def ems_readb (dev : MemDev) (map : MemMapping) (addr : Nat) : Nat :=
  dev.ram ((dev.ems (emsVpage addr)).addrOff + (addr - map.base))

/-- `ems_readw`: read one (little-endian) word from onboard paged RAM. -/
def ems_readw (dev : MemDev) (map : MemMapping) (addr : Nat) : Nat :=
  dev.ram ((dev.ems (emsVpage addr)).addrOff + (addr - map.base)) +
    256 * dev.ram ((dev.ems (emsVpage addr)).addrOff + (addr - map.base) + 1)

/-- `ems_writeb`: write one byte to onboard paged RAM. -/
def ems_writeb (dev : MemDev) (map : MemMapping) (addr val : Nat) : MemDev :=
  { dev with ram := fun a =>
      if a = (dev.ems (emsVpage addr)).addrOff + (addr - map.base) then val % 256
      else dev.ram a }

/-- `ems_writew`: write one (little-endian) word to onboard paged RAM. -/
def ems_writew (dev : MemDev) (map : MemMapping) (addr val : Nat) : MemDev :=
  { dev with ram := fun a =>
      if a = (dev.ems (emsVpage addr)).addrOff + (addr - map.base) then val % 256
      else if a = (dev.ems (emsVpage addr)).addrOff + (addr - map.base) + 1 then
        val / 256 % 256
      else dev.ram a }

/-- `ems_read`: READ handler for the EMS I/O registers. The `uint16_t` port is
    decoded as `vpage = port / EMS_PGSIZE`, `port &= EMS_PGSIZE - 1`; the
    `switch (port - dev->base_addr)` (computed in `uint32_t`) hits case `0`
    exactly when the masked port equals `base_addr`, and case `1` exactly when
    it equals `base_addr + 1` (a masked port below `16384` can never wrap to
    these values otherwise). Returns the value read and the (unchanged) device:
    the C body never writes to `dev`. -/
def ems_read (dev : MemDev) (port : Nat) : Nat × MemDev :=
  let vpage := emsVpage port
  let p := port % 16384
  let ret : Nat :=
    if p = dev.base_addr then
      -- page number register
      if (dev.ems vpage).enabled then (dev.ems vpage).page ||| 0x80
      else (dev.ems vpage).page
    else if p = dev.base_addr + 1 then
      -- W/O
      0xff
    else
      0xff
  (ret, dev)

/-- `ems_write`: WRITE handler for the EMS I/O registers; same port decode as
    `ems_read`. Case `0` (page mapping register) stores the requested enable
    bit and page number unconditionally, then — only if `FLAG_CONFIG` is set —
    validates the page against `ems_pages`, recomputes the page address, and
    enables or disables the viewport mapping. Case `1` (page frame register)
    stores the value and sets `FLAG_CONFIG` when it is nonzero.
    The `val` parameter is a C `uint8_t`, so callers pass `val < 256`. -/
def ems_write (dev : MemDev) (port val : Nat) : MemDev :=
  let vpage := emsVpage port
  let p := port % 16384
  if p = dev.base_addr then
    -- page mapping registers
    let e0 := dev.ems vpage
    let e1 := { e0 with enabled := (val &&& 0x80) != 0, page := val &&& 0x7f }
    if dev.flag_config then
      let e2 :=
        if e1.page < dev.ems_pages then
          { e1 with addrOff := dev.ems_start + (val &&& 0x7f) * EMS_PGSIZE }
        else
          { e1 with enabled := false }
      let e3 :=
        if e2.enabled then
          { e2 with mapping := { e2.mapping with exec := e2.addrOff, enabled := true } }
        else
          { e2 with mapping := { e2.mapping with enabled := false } }
      { dev with ems := Function.update dev.ems vpage e3 }
    else
      { dev with ems := Function.update dev.ems vpage e1 }
  else if p = dev.base_addr + 1 then
    -- page frame registers
    let e0 := dev.ems vpage
    { dev with ems := Function.update dev.ems vpage { e0 with frame := val },
               flag_config := dev.flag_config || (val != 0) }
  else
    dev

/-- Fold a list of `(port, val)` I/O-register writes over a board instance. -/
def applyWrites (dev : MemDev) (ops : List (Nat × Nat)) : MemDev :=
  ops.foldl (fun d pv => ems_write d pv.1 pv.2) dev

/-- Board configuration options, as retrieved through
    `device_get_config_int` / `device_get_config_hex16` / `device_get_config_hex20`. -/
structure BoardConfig where
  size : Nat := 0
  start : Nat := 0
  length : Nat := 0
  width : Nat := 0
  speed : Nat := 0
  ems : Nat := 0
  base : Nat := 0
  frame : Nat := 0
deriving Repr, DecidableEq

/-- The per-board `switch (dev->board)` of `isamem_init`: returns the partially
    filled device and the local `tot` (in KB). `total_size` and `base_addr` are
    stored through `uint16_t`. -/
def boardSetup (board : Nat) (cfg : BoardConfig) : MemDev × Nat :=
  if board = 0 ∨ board = 2 then
    -- IBM PC/XT Memory Expansion Card / Paradise Systems 5-PAK
    ({ total_size := cfg.size % 65536, start_addr := cfg.start }, cfg.size % 65536)
  else if board = 1 then
    -- IBM PC/AT Memory Expansion Card
    ({ total_size := cfg.size % 65536, start_addr := cfg.start, flag_wide := true },
     cfg.size % 65536)
  else if board = 3 then
    -- Micro Mainframe EMS-5150(T)
    ({ base_addr := cfg.base % 65536, total_size := cfg.size % 65536,
       frame_addr := 0xD0000, flag_ems := true, flag_config := true }, 0)
  else if board = 10 then
    -- Everex EV-159 RAM 3000
    ({ base_addr := cfg.base % 65536, total_size := cfg.size % 65536,
       start_addr := cfg.start, flag_wide := cfg.width != 0,
       flag_fast := cfg.speed != 0, flag_ems := cfg.ems != 0,
       frame_addr := 0xE0000 }, cfg.length)
  else if board = 11 then
    -- AST RAMpage/XT
    ({ base_addr := cfg.base % 65536, total_size := cfg.size % 65536,
       start_addr := cfg.start, frame_addr := cfg.frame,
       flag_wide := cfg.width != 0, flag_fast := cfg.speed != 0 }, 0)
  else
    ({}, 0)

/-- The mutable locals of the carving phase of `isamem_init`: the device under
    construction, the pool counter `k`, the remaining contiguous amount `tot`,
    the guest-address cursor `addr`, and the RAM-offset cursor `ptr`
    (`ptr - dev->ram` in the C code). -/
structure CarveSt where
  dev : MemDev
  k : Nat
  tot : Nat
  addr : Nat
  ptr : Nat

/-- Conventional (low) memory expansion: extend up to `RAM_TOPMEM`, clamped to
    the available `tot`; registers the low mapping as enabled external RAM and
    advances the cursors. -/
def carveLow (s : CarveSt) : CarveSt :=
  let t := if s.addr < RAM_TOPMEM then RAM_TOPMEM - s.addr else 0
  if 0 < t then
    let t := min t s.tot
    { s with
      dev := { s.dev with
        low_mapping := { reg := true, enabled := true, base := s.addr, size := t,
                         exec := s.ptr } },
      ptr := s.ptr + t, tot := s.tot - t, addr := s.addr + t }
  else s

/-- Upper-memory remap window: if the cursor is exactly at `RAM_TOPMEM` and at
    least `RAM_UMAMEM` remains, the next 384 KB go into the shared remapped
    mapping (registered at `addr + tot`, disabled) and the cursors advance. -/
def carveRemap (s : CarveSt) : CarveSt :=
  if s.addr = RAM_TOPMEM ∧ RAM_UMAMEM ≤ s.tot then
    { s with
      dev := { s.dev with
        remapped := { reg := true, enabled := false, base := s.addr + s.tot,
                      size := RAM_UMAMEM, exec := s.ptr } },
      ptr := s.ptr + RAM_UMAMEM, tot := s.tot - RAM_UMAMEM,
      addr := s.addr + RAM_UMAMEM }
  else s

/-- The `if (addr > 0 && tot > 0)` block of `isamem_init`: reserve `tot` bytes
    out of the pool counter `k` (a `uint32_t` subtraction, hence the explicit
    wraparound), then carve conventional memory and the remap window. -/
def carveConv (s : CarveSt) : CarveSt :=
  if 0 < s.addr ∧ 0 < s.tot then
    carveRemap (carveLow { s with k := (s.k + 4294967296 - s.tot % 4294967296) % 4294967296 })
  else s

/-- Extended memory (80286+ only): whatever contiguous RAM remains is
    registered above the cursor as the enabled high mapping. -/
def carveExt (atBus : Bool) (s : CarveSt) : CarveSt :=
  if atBus ∧ 0 < s.addr ∧ 0 < s.tot then
    { s with
      dev := { s.dev with
        high_mapping := { reg := true, enabled := true, base := s.addr,
                          size := s.tot, exec := s.ptr } },
      ptr := s.ptr + s.tot, addr := s.addr + s.tot, tot := 0 }
  else s

/-- EMS pool setup: if `FLAG_EMS` is set, the remainder `k` (capped at
    `EMS_MAXSIZE`) becomes the pool (`ems_start`, `ems_size`, `ems_pages`), and
    the four 16 KB viewport mappings are registered at
    `frame_addr + EMS_PGSIZE*i`, initially disabled, all backed at the cursor. -/
def emsSetup (s : CarveSt) : MemDev :=
  if s.dev.flag_ems then
    let t := min s.k EMS_MAXSIZE
    { s.dev with
      ems_start := s.ptr,
      ems_size := t >>> 10,
      ems_pages := t / EMS_PGSIZE,
      ems := fun i =>
        { enabled := false, page := 0, frame := 0, addrOff := 0,
          mapping := { reg := true, enabled := false,
                       base := s.dev.frame_addr + EMS_PGSIZE * i.val,
                       size := EMS_PGSIZE, exec := s.ptr } } }
  else s.dev

/-- The state of `isamem_init` just before the carving block: per-board option
    setup, `start_addr <<= 10` (as `uint32_t`), forcing 8-bit mode on non-AT
    systems, the pool counter `k = total_size << 10` (the size of the
    zero-filled RAM buffer), `tot <<= 10`, and the cursors at
    `addr = start_addr`, `ptr = dev->ram` (offset 0). -/
def initialState (board : Nat) (cfg : BoardConfig) (atBus : Bool) : CarveSt :=
  let p := boardSetup board cfg
  let dev2 := { p.1 with start_addr := (p.1.start_addr <<< 10) % 4294967296 }
  let dev3 := if !atBus && dev2.flag_wide then { dev2 with flag_wide := false } else dev2
  { dev := dev3, k := dev3.total_size <<< 10,
    tot := (p.2 <<< 10) % 4294967296, addr := dev3.start_addr, ptr := 0 }

/-- `isamem_init`: option setup followed by conventional / remap-window carving,
    extended-memory carving, and EMS pool setup. -/
def isamem_init (board : Nat) (cfg : BoardConfig) (atBus : Bool) : MemDev :=
  emsSetup (carveExt atBus (carveConv (initialState board cfg atBus)))

/-- The viewport-enable invariant of the spec (§3): a viewport window is
    enabled only if the board is configured and its selected page is below
    `ems_pages`. -/
def viewportInv (dev : MemDev) : Prop :=
  ∀ i : Fin 4, (dev.ems i).mapping.enabled = true →
    dev.flag_config = true ∧ (dev.ems i).page < dev.ems_pages

/-- The EMS pool size as the spec's words for claim C4 describe it: the
    RAM-buffer bytes remaining after conventional / remap-window / extended
    carving (`ems_start` is exactly the number of carved bytes). -/
def poolBytesSpec (dev : MemDev) : Nat :=
  dev.total_size * 1024 - dev.ems_start

/-- The pool bytes the code actually reserves: the `uint32_t` counter `k` after
    the up-front `k -= tot` reservation (performed only when the carving block
    is entered, i.e. `addr > 0 && tot > 0`). -/
def reservedPoolBytes (board : Nat) (cfg : BoardConfig) : Nat :=
  let p := boardSetup board cfg
  let sizeB := p.1.total_size <<< 10
  let totB := (p.2 <<< 10) % 4294967296
  let addr := (p.1.start_addr <<< 10) % 4294967296
  if 0 < addr ∧ 0 < totB then (sizeB + 4294967296 - totB % 4294967296) % 4294967296
  else sizeB

/-- A concrete board state used to exercise the RAM translators: wide flag
    set, an enabled 4 KB conventional region at `0x40000`, an enabled 4 KB
    extended region at `0x100000`, and all viewports enabled on page 2
    (pool offset `0x8000`) with windows in the `0xE0000` frame. -/
def c3dev : MemDev :=
  { flag_wide := true,
    low_mapping := { reg := true, enabled := true, base := 0x40000, size := 0x1000 },
    high_mapping := { reg := true, enabled := true, base := 0x100000, size := 0x1000 },
    ems := fun _ =>
      { enabled := true, page := 2, addrOff := 0x8000,
        mapping := { reg := true, enabled := true, base := 0xE4000, size := 0x4000 } } }

/-- Scenario A configuration (EV-159): 1024 KB total, start at 256 KB,
    384 KB contiguous, EMS enabled, I/O base `0x258`. -/
def cfgScenarioA : BoardConfig :=
  { size := 1024, start := 256, length := 384, ems := 1, base := 0x258 }

/-! ### Helper lemmas -/

theorem and_128_eq_ite (v : Nat) : v &&& 128 = if (v &&& 128) != 0 then 128 else 0 := by
  have h : v &&& 128 = (v.testBit 7).toNat * 128 := by
    have := Nat.and_two_pow v 7
    norm_num at this
    exact this
  rcases Bool.eq_false_or_eq_true (v.testBit 7) with hb | hb <;> simp [h, hb]

theorem ems_write_scalar_fields (dev : MemDev) (port val : Nat) :
    (ems_write dev port val).ems_pages = dev.ems_pages ∧
    (ems_write dev port val).ems_start = dev.ems_start ∧
    (ems_write dev port val).base_addr = dev.base_addr ∧
    (ems_write dev port val).total_size = dev.total_size ∧
    (ems_write dev port val).ram = dev.ram ∧
    (dev.flag_config = true → (ems_write dev port val).flag_config = true) := by
  simp only [ems_write]
  split_ifs <;> simp_all

theorem ems_write_ems_ne (dev : MemDev) (port val : Nat) (i : Fin 4)
    (hi : i ≠ emsVpage port) :
    (ems_write dev port val).ems i = dev.ems i := by
  simp only [ems_write]
  split_ifs <;> simp [Function.update_noteq hi]

theorem ems_write_reg0_valid_enable (dev : MemDev) (port val : Nat)
    (h0 : port % 16384 = dev.base_addr) (hc : dev.flag_config = true)
    (hp : val &&& 0x7f < dev.ems_pages) (he : ((val &&& 0x80) != 0) = true) :
    (ems_write dev port val).ems (emsVpage port) =
      { dev.ems (emsVpage port) with
          enabled := true, page := val &&& 0x7f,
          addrOff := dev.ems_start + (val &&& 0x7f) * EMS_PGSIZE,
          mapping := { (dev.ems (emsVpage port)).mapping with
                        exec := dev.ems_start + (val &&& 0x7f) * EMS_PGSIZE,
                        enabled := true } } := by
  simp only [ems_write]
  simp [h0, hc, hp, he, Function.update_same]

theorem ems_write_reg0_valid_disable (dev : MemDev) (port val : Nat)
    (h0 : port % 16384 = dev.base_addr) (hc : dev.flag_config = true)
    (hp : val &&& 0x7f < dev.ems_pages) (he : ((val &&& 0x80) != 0) = false) :
    (ems_write dev port val).ems (emsVpage port) =
      { dev.ems (emsVpage port) with
          enabled := false, page := val &&& 0x7f,
          addrOff := dev.ems_start + (val &&& 0x7f) * EMS_PGSIZE,
          mapping := { (dev.ems (emsVpage port)).mapping with enabled := false } } := by
  simp only [ems_write]
  simp [h0, hc, hp, he, Function.update_same]

theorem ems_write_reg0_invalid (dev : MemDev) (port val : Nat)
    (h0 : port % 16384 = dev.base_addr) (hc : dev.flag_config = true)
    (hp : ¬ val &&& 0x7f < dev.ems_pages) :
    (ems_write dev port val).ems (emsVpage port) =
      { dev.ems (emsVpage port) with
          enabled := false, page := val &&& 0x7f,
          mapping := { (dev.ems (emsVpage port)).mapping with enabled := false } } := by
  simp only [ems_write]
  simp [h0, hc, hp, Function.update_same]

theorem ems_write_reg0_unconfigured (dev : MemDev) (port val : Nat)
    (h0 : port % 16384 = dev.base_addr) (hc : dev.flag_config = false) :
    (ems_write dev port val).ems (emsVpage port) =
      { dev.ems (emsVpage port) with
          enabled := (val &&& 0x80) != 0, page := val &&& 0x7f } := by
  simp only [ems_write]
  simp [h0, hc, Function.update_same]

theorem ems_write_reg0_flag (dev : MemDev) (port val : Nat)
    (h0 : port % 16384 = dev.base_addr) :
    (ems_write dev port val).flag_config = dev.flag_config := by
  simp only [ems_write]
  split_ifs <;> simp_all

theorem ems_write_reg1 (dev : MemDev) (port val : Nat)
    (h1 : port % 16384 = dev.base_addr + 1) :
    (ems_write dev port val).ems (emsVpage port) =
      { dev.ems (emsVpage port) with frame := val } ∧
    (ems_write dev port val).flag_config = (dev.flag_config || (val != 0)) := by
  have h0 : ¬ port % 16384 = dev.base_addr := by omega
  simp only [ems_write]
  simp [h0, h1, Function.update_same]

theorem ems_write_other (dev : MemDev) (port val : Nat)
    (h0 : ¬ port % 16384 = dev.base_addr)
    (h1 : ¬ port % 16384 = dev.base_addr + 1) :
    ems_write dev port val = dev := by
  simp only [ems_write]
  simp [h0, h1]

theorem viewportInv_ems_write (dev : MemDev) (h : viewportInv dev) (port val : Nat) :
    viewportInv (ems_write dev port val) := by
  intro i hen
  have hfields := ems_write_scalar_fields dev port val
  by_cases h0 : port % 16384 = dev.base_addr
  · by_cases hc : dev.flag_config = true
    · refine ⟨hfields.2.2.2.2.2 hc, ?_⟩
      rw [hfields.1]
      by_cases hi : i = emsVpage port
      · subst hi
        by_cases hp : val &&& 0x7f < dev.ems_pages
        · by_cases he : ((val &&& 0x80) != 0) = true
          · rw [ems_write_reg0_valid_enable dev port val h0 hc hp he]
            exact hp
          · rw [ems_write_reg0_valid_disable dev port val h0 hc hp
                (Bool.eq_false_iff.mpr (fun hx => he hx))] at hen
            cases hen
        · rw [ems_write_reg0_invalid dev port val h0 hc hp] at hen
          cases hen
      · rw [ems_write_ems_ne dev port val i hi] at hen ⊢
        exact (h i hen).2
    · exfalso
      by_cases hi : i = emsVpage port
      · subst hi
        rw [ems_write_reg0_unconfigured dev port val h0
            (Bool.eq_false_iff.mpr (fun hx => hc hx))] at hen
        exact hc (h _ hen).1
      · rw [ems_write_ems_ne dev port val i hi] at hen
        exact hc (h i hen).1
  · by_cases h1 : port % 16384 = dev.base_addr + 1
    · have hr := ems_write_reg1 dev port val h1
      have hen' : (dev.ems i).mapping.enabled = true := by
        by_cases hi : i = emsVpage port
        · subst hi
          rw [hr.1] at hen
          exact hen
        · rw [ems_write_ems_ne dev port val i hi] at hen
          exact hen
      refine ⟨?_, ?_⟩
      · rw [hr.2, (h i hen').1]
        rfl
      · rw [hfields.1]
        by_cases hi : i = emsVpage port
        · subst hi
          rw [hr.1]
          exact (h _ hen').2
        · rw [ems_write_ems_ne dev port val i hi]
          exact (h i hen').2
    · rw [ems_write_other dev port val h0 h1] at hen ⊢
      exact h i hen

theorem viewportInv_applyWrites (dev : MemDev) (h : viewportInv dev)
    (ops : List (Nat × Nat)) : viewportInv (applyWrites dev ops) := by
  induction ops generalizing dev with
  | nil => exact h
  | cons op ops ih =>
    exact ih (ems_write dev op.1 op.2) (viewportInv_ems_write dev h op.1 op.2)

theorem boardSetup_ems (board : Nat) (cfg : BoardConfig) :
    (boardSetup board cfg).1.ems = fun _ => ({} : EmsReg) := by
  unfold boardSetup
  split_ifs <;> rfl

theorem carveLow_dev_ems (s : CarveSt) : (carveLow s).dev.ems = s.dev.ems := by
  simp only [carveLow]
  split_ifs <;> rfl

theorem carveRemap_dev_ems (s : CarveSt) : (carveRemap s).dev.ems = s.dev.ems := by
  simp only [carveRemap]
  split_ifs <;> rfl

theorem carveConv_dev_ems (s : CarveSt) : (carveConv s).dev.ems = s.dev.ems := by
  simp only [carveConv]
  split_ifs with h
  · rw [carveRemap_dev_ems, carveLow_dev_ems]
  · rfl

theorem carveExt_dev_ems (atBus : Bool) (s : CarveSt) :
    (carveExt atBus s).dev.ems = s.dev.ems := by
  simp only [carveExt]
  split_ifs <;> rfl

theorem initialState_dev_ems (board : Nat) (cfg : BoardConfig) (atBus : Bool) :
    (initialState board cfg atBus).dev.ems = fun _ => ({} : EmsReg) := by
  simp only [initialState]
  split_ifs <;> simp [boardSetup_ems]

theorem emsSetup_ems_mapping_disabled (s : CarveSt)
    (h : ∀ j : Fin 4, (s.dev.ems j).mapping.enabled = false) (i : Fin 4) :
    ((emsSetup s).ems i).mapping.enabled = false := by
  simp only [emsSetup]
  split_ifs <;> simp_all

theorem isamem_init_ems_mapping_disabled (board : Nat) (cfg : BoardConfig)
    (atBus : Bool) (i : Fin 4) :
    ((isamem_init board cfg atBus).ems i).mapping.enabled = false := by
  unfold isamem_init
  refine emsSetup_ems_mapping_disabled _ (fun j => ?_) i
  rw [carveExt_dev_ems, carveConv_dev_ems, initialState_dev_ems]

theorem viewportInv_isamem_init (board : Nat) (cfg : BoardConfig) (atBus : Bool) :
    viewportInv (isamem_init board cfg atBus) := by
  intro i hen
  rw [isamem_init_ems_mapping_disabled] at hen
  cases hen

theorem boardSetup_total_lt (board : Nat) (cfg : BoardConfig) :
    (boardSetup board cfg).1.total_size < 65536 := by
  unfold boardSetup
  split_ifs <;> simp <;> omega

theorem boardSetup_pool_zero (board : Nat) (cfg : BoardConfig) :
    (boardSetup board cfg).1.ems_pages = 0 ∧ (boardSetup board cfg).1.ems_start = 0 := by
  unfold boardSetup
  split_ifs <;> exact ⟨rfl, rfl⟩

theorem initialState_facts (board : Nat) (cfg : BoardConfig) (atBus : Bool) :
    (initialState board cfg atBus).dev.total_size = (boardSetup board cfg).1.total_size ∧
    (initialState board cfg atBus).dev.start_addr =
      ((boardSetup board cfg).1.start_addr <<< 10) % 4294967296 ∧
    (initialState board cfg atBus).dev.flag_ems = (boardSetup board cfg).1.flag_ems ∧
    (initialState board cfg atBus).dev.ems_pages = 0 ∧
    (initialState board cfg atBus).dev.ems_start = 0 ∧
    (initialState board cfg atBus).k = (boardSetup board cfg).1.total_size <<< 10 ∧
    (initialState board cfg atBus).tot = ((boardSetup board cfg).2 <<< 10) % 4294967296 ∧
    (initialState board cfg atBus).addr =
      ((boardSetup board cfg).1.start_addr <<< 10) % 4294967296 ∧
    (initialState board cfg atBus).ptr = 0 := by
  have hz := boardSetup_pool_zero board cfg
  simp only [initialState]
  split_ifs <;> simp [hz.1, hz.2]

theorem carveLow_facts (s : CarveSt) :
    (carveLow s).k = s.k ∧
    (carveLow s).dev.total_size = s.dev.total_size ∧
    (carveLow s).dev.start_addr = s.dev.start_addr ∧
    (carveLow s).dev.flag_ems = s.dev.flag_ems ∧
    (carveLow s).dev.ems_pages = s.dev.ems_pages ∧
    (carveLow s).dev.ems_start = s.dev.ems_start ∧
    (carveLow s).ptr + (carveLow s).tot = s.ptr + s.tot ∧
    s.addr ≤ (carveLow s).addr := by
  simp only [carveLow, RAM_TOPMEM]
  split_ifs <;>
    refine ⟨rfl, rfl, rfl, rfl, rfl, rfl, ?_, ?_⟩ <;> simp <;> omega

theorem carveRemap_facts (s : CarveSt) :
    (carveRemap s).k = s.k ∧
    (carveRemap s).dev.total_size = s.dev.total_size ∧
    (carveRemap s).dev.start_addr = s.dev.start_addr ∧
    (carveRemap s).dev.flag_ems = s.dev.flag_ems ∧
    (carveRemap s).dev.ems_pages = s.dev.ems_pages ∧
    (carveRemap s).dev.ems_start = s.dev.ems_start ∧
    (carveRemap s).ptr + (carveRemap s).tot = s.ptr + s.tot ∧
    s.addr ≤ (carveRemap s).addr := by
  simp only [carveRemap, RAM_TOPMEM, RAM_UMAMEM]
  split_ifs <;>
    refine ⟨rfl, rfl, rfl, rfl, rfl, rfl, ?_, ?_⟩ <;> simp <;> omega

theorem carveConv_facts (s : CarveSt) :
    (carveConv s).dev.total_size = s.dev.total_size ∧
    (carveConv s).dev.start_addr = s.dev.start_addr ∧
    (carveConv s).dev.flag_ems = s.dev.flag_ems ∧
    (carveConv s).dev.ems_pages = s.dev.ems_pages ∧
    (carveConv s).dev.ems_start = s.dev.ems_start ∧
    (¬ (0 < s.addr ∧ 0 < s.tot) → carveConv s = s) ∧
    (0 < s.addr ∧ 0 < s.tot →
      (carveConv s).k = (s.k + 4294967296 - s.tot % 4294967296) % 4294967296 ∧
      (carveConv s).ptr + (carveConv s).tot = s.ptr + s.tot ∧
      s.addr ≤ (carveConv s).addr) := by
  by_cases h : 0 < s.addr ∧ 0 < s.tot
  · have h1 := carveLow_facts { s with k := (s.k + 4294967296 - s.tot % 4294967296) % 4294967296 }
    have h2 := carveRemap_facts (carveLow
      { s with k := (s.k + 4294967296 - s.tot % 4294967296) % 4294967296 })
    have hp0 : ({ s with k := (s.k + 4294967296 - s.tot % 4294967296) % 4294967296 }
        : CarveSt).ptr = s.ptr := rfl
    have ht0 : ({ s with k := (s.k + 4294967296 - s.tot % 4294967296) % 4294967296 }
        : CarveSt).tot = s.tot := rfl
    have ha0 : ({ s with k := (s.k + 4294967296 - s.tot % 4294967296) % 4294967296 }
        : CarveSt).addr = s.addr := rfl
    have hk0 : ({ s with k := (s.k + 4294967296 - s.tot % 4294967296) % 4294967296 }
        : CarveSt).k = (s.k + 4294967296 - s.tot % 4294967296) % 4294967296 := rfl
    have hd0 : ({ s with k := (s.k + 4294967296 - s.tot % 4294967296) % 4294967296 }
        : CarveSt).dev = s.dev := rfl
    have hunf : carveConv s = carveRemap (carveLow
        { s with k := (s.k + 4294967296 - s.tot % 4294967296) % 4294967296 }) := by
      simp only [carveConv]
      rw [if_pos h]
    rw [hunf]
    refine ⟨by rw [h2.2.1, h1.2.1, hd0], by rw [h2.2.2.1, h1.2.2.1, hd0],
      by rw [h2.2.2.2.1, h1.2.2.2.1, hd0], by rw [h2.2.2.2.2.1, h1.2.2.2.2.1, hd0],
      by rw [h2.2.2.2.2.2.1, h1.2.2.2.2.2.1, hd0],
      fun hn => absurd h hn, fun _ => ⟨by rw [h2.1, h1.1, hk0], ?_, ?_⟩⟩
    · have e2 := h2.2.2.2.2.2.2.1
      have e1 := h1.2.2.2.2.2.2.1
      rw [hp0, ht0] at e1
      omega
    · have e2 := h2.2.2.2.2.2.2.2
      have e1 := h1.2.2.2.2.2.2.2
      rw [ha0] at e1
      omega
  · have hunf : carveConv s = s := by
      simp only [carveConv]
      rw [if_neg h]
    rw [hunf]
    exact ⟨rfl, rfl, rfl, rfl, rfl, fun _ => rfl, fun hp => absurd hp h⟩

theorem carveExt_facts (b : Bool) (s : CarveSt) :
    (carveExt b s).k = s.k ∧
    (carveExt b s).dev.total_size = s.dev.total_size ∧
    (carveExt b s).dev.start_addr = s.dev.start_addr ∧
    (carveExt b s).dev.flag_ems = s.dev.flag_ems ∧
    (carveExt b s).dev.ems_pages = s.dev.ems_pages ∧
    (carveExt b s).dev.ems_start = s.dev.ems_start ∧
    (carveExt b s).ptr ≤ s.ptr + s.tot ∧
    (b = true → 0 < s.addr → (carveExt b s).ptr = s.ptr + s.tot) ∧
    (¬ (b = true ∧ 0 < s.addr ∧ 0 < s.tot) → carveExt b s = s) := by
  simp only [carveExt]
  split_ifs with h
  · exact ⟨rfl, rfl, rfl, rfl, rfl, rfl, Nat.le_refl _, fun _ _ => rfl,
      fun hn => absurd h hn⟩
  · refine ⟨rfl, rfl, rfl, rfl, rfl, rfl, by omega, ?_, fun _ => rfl⟩
    intro hb ha
    have htot : s.tot = 0 := by
      rcases Nat.eq_zero_or_pos s.tot with h0 | h0
      · exact h0
      · exact absurd ⟨by simp [hb], ha, h0⟩ h
    omega

theorem emsSetup_facts (s : CarveSt) :
    (emsSetup s).total_size = s.dev.total_size ∧
    (emsSetup s).start_addr = s.dev.start_addr ∧
    (emsSetup s).flag_ems = s.dev.flag_ems ∧
    (s.dev.flag_ems = true →
      (emsSetup s).ems_pages = min s.k EMS_MAXSIZE / EMS_PGSIZE ∧
      (emsSetup s).ems_start = s.ptr) ∧
    (s.dev.flag_ems = false →
      (emsSetup s).ems_pages = s.dev.ems_pages ∧
      (emsSetup s).ems_start = s.dev.ems_start) := by
  simp only [emsSetup]
  split_ifs with h <;>
    simp_all [Nat.min_def]

/-! ### Claim theorems -/

/-- C1: over every sequence of I/O-register writes applied to a freshly
    initialised board, (a) a viewport window is enabled only if the board's
    configured flag is set and its selected page is below `ems_pages`;
    (b) a `page_select` write requesting enable with a page `≥ ems_pages` on a
    configured board leaves the viewport window disabled; (c) a `page_select`
    write issued before the board is configured is recorded (the page number
    and requested enable bit are stored in the register) but the viewport
    window stays disabled regardless of the requested bit. Viewport
    enabled/disabled state is the state of the 16 KB mapped window that the
    controller drives via `mem_mapping_enable` / `mem_mapping_disable`. -/
theorem C1_viewport_enable_invariant (board : Nat) (cfg : BoardConfig)
    (atBus : Bool) (ops : List (Nat × Nat)) (port val : Nat) :
    (∀ i : Fin 4,
      ((applyWrites (isamem_init board cfg atBus) ops).ems i).mapping.enabled = true →
        (applyWrites (isamem_init board cfg atBus) ops).flag_config = true ∧
        ((applyWrites (isamem_init board cfg atBus) ops).ems i).page <
          (applyWrites (isamem_init board cfg atBus) ops).ems_pages) ∧
    ((applyWrites (isamem_init board cfg atBus) ops).flag_config = true →
      port % 16384 = (applyWrites (isamem_init board cfg atBus) ops).base_addr →
      ((val &&& 0x80) != 0) = true →
      (applyWrites (isamem_init board cfg atBus) ops).ems_pages ≤ val &&& 0x7f →
      ((ems_write (applyWrites (isamem_init board cfg atBus) ops) port val).ems
          (emsVpage port)).mapping.enabled = false) ∧
    ((applyWrites (isamem_init board cfg atBus) ops).flag_config = false →
      port % 16384 = (applyWrites (isamem_init board cfg atBus) ops).base_addr →
      ((ems_write (applyWrites (isamem_init board cfg atBus) ops) port val).ems
          (emsVpage port)).page = val &&& 0x7f ∧
      ((ems_write (applyWrites (isamem_init board cfg atBus) ops) port val).ems
          (emsVpage port)).enabled = ((val &&& 0x80) != 0) ∧
      ((ems_write (applyWrites (isamem_init board cfg atBus) ops) port val).ems
          (emsVpage port)).mapping.enabled = false) := by
  have hinv : viewportInv (applyWrites (isamem_init board cfg atBus) ops) :=
    viewportInv_applyWrites _ (viewportInv_isamem_init board cfg atBus) ops
  refine ⟨hinv, ?_, ?_⟩
  · intro hc hp _ hge
    rw [ems_write_reg0_invalid _ port val hp hc (by omega)]
  · intro hc hp
    rw [ems_write_reg0_unconfigured _ port val hp hc]
    refine ⟨rfl, rfl, ?_⟩
    show ((applyWrites (isamem_init board cfg atBus) ops).ems
        (emsVpage port)).mapping.enabled = false
    by_cases hen : ((applyWrites (isamem_init board cfg atBus) ops).ems
        (emsVpage port)).mapping.enabled = true
    · rw [(hinv _ hen).1] at hc
      cases hc
    · exact Bool.eq_false_iff.mpr hen

/-- C1 witness: on an EV-159 (board 10) made configured by a nonzero
    `frame_config` write and with viewport 0 enabled at page 1, the invariant's
    conclusion holds; a configured enable-request naming page `0x20 = 32 ≥
    ems_pages = 32` leaves the window disabled; and on the same board before
    configuration, writing `0x85` records page 5 and the requested enable bit
    but leaves the window disabled. -/
theorem C1_viewport_enable_invariant_witness :
    (let s := applyWrites (isamem_init 10 { size := 512, ems := 1, base := 0x258 } false)
        [(0x259, 1), (0x258, 0x81)]
     (s.flag_config = true ∧ (s.ems 0).page < s.ems_pages) ∧
     ((ems_write s 0x258 0xa0).ems (emsVpage 0x258)).mapping.enabled = false) ∧
    (let s0 := isamem_init 10 { size := 512, ems := 1, base := 0x258 } false
     ((ems_write s0 0x258 0x85).ems (emsVpage 0x258)).page = 0x85 &&& 0x7f ∧
     ((ems_write s0 0x258 0x85).ems (emsVpage 0x258)).enabled = ((0x85 &&& 0x80) != 0) ∧
     ((ems_write s0 0x258 0x85).ems (emsVpage 0x258)).mapping.enabled = false) :=
  ⟨⟨(C1_viewport_enable_invariant 10 { size := 512, ems := 1, base := 0x258 } false
        [(0x259, 1), (0x258, 0x81)] 0x258 0xa0).1 0 (by decide),
    (C1_viewport_enable_invariant 10 { size := 512, ems := 1, base := 0x258 } false
        [(0x259, 1), (0x258, 0x81)] 0x258 0xa0).2.1 (by decide) (by decide)
        (by decide) (by decide)⟩,
   (C1_viewport_enable_invariant 10 { size := 512, ems := 1, base := 0x258 } false
        [] 0x258 0x85).2.2 (by decide) (by decide)⟩

/-- C2 counterexample: on an unconfigured EV-159, the `page_select` write
    `0x85` is a forced-disabled write (the board is not configured, and the
    viewport window indeed stays disabled), yet the subsequent read returns
    `0x85` — bit 7 set — so the read DOES reflect the forced-disabled write's
    enable bit, and bit 7 is not "set iff the viewport is currently enabled". -/
theorem C2_read_counterexample :
    (let dev := isamem_init 10 { size := 512, ems := 1, base := 0x258 } false
     let d' := ems_write dev 0x258 0x85
     dev.flag_config = false ∧
     (ems_read d' 0x258).1 = 0x85 ∧
     (ems_read d' 0x258).1 &&& 0x80 ≠ 0 ∧
     (d'.ems (emsVpage 0x258)).mapping.enabled = false) := by
  decide

/-- C2 (amended): reading `page_select` has no side effects and returns the
    stored page number with bit 7 set iff the stored enable register bit is
    set. Read-after-write on `page_select` returns the written low-7-bit page
    value, OR `0x80` exactly per the viewport window's enabled state, for every
    write made while the board is configured (so a write forced disabled by
    `page ≥ ems_pages` is never reflected); but for a write made before the
    board is configured, the read reflects the write's requested enable bit
    even though the viewport window stays disabled. -/
theorem C2_read_page_select (dev : MemDev) (port val : Nat)
    (hp : port % 16384 = dev.base_addr) :
    ((ems_read dev port).1 =
      if (dev.ems (emsVpage port)).enabled then (dev.ems (emsVpage port)).page ||| 0x80
      else (dev.ems (emsVpage port)).page) ∧
    (ems_read dev port).2 = dev ∧
    (dev.flag_config = true →
      (ems_read (ems_write dev port val) port).1 =
        (val &&& 0x7f) |||
          (if ((ems_write dev port val).ems (emsVpage port)).mapping.enabled then 0x80
           else 0)) ∧
    (dev.flag_config = false →
      (ems_read (ems_write dev port val) port).1 =
        (val &&& 0x7f) ||| (val &&& 0x80)) := by
  have hbase : (ems_write dev port val).base_addr = dev.base_addr :=
    (ems_write_scalar_fields dev port val).2.2.1
  refine ⟨by simp [ems_read, hp], rfl, ?_, ?_⟩
  · intro hc
    by_cases hpg : val &&& 0x7f < dev.ems_pages
    · by_cases he : ((val &&& 0x80) != 0) = true
      · rw [show (ems_read (ems_write dev port val) port).1 =
            (if ((ems_write dev port val).ems (emsVpage port)).enabled then
              ((ems_write dev port val).ems (emsVpage port)).page ||| 0x80
             else ((ems_write dev port val).ems (emsVpage port)).page) from by
              simp [ems_read, hbase, hp]]
        rw [ems_write_reg0_valid_enable dev port val hp hc hpg he]
        simp
      · rw [show (ems_read (ems_write dev port val) port).1 =
            (if ((ems_write dev port val).ems (emsVpage port)).enabled then
              ((ems_write dev port val).ems (emsVpage port)).page ||| 0x80
             else ((ems_write dev port val).ems (emsVpage port)).page) from by
              simp [ems_read, hbase, hp]]
        rw [ems_write_reg0_valid_disable dev port val hp hc hpg
            (Bool.eq_false_iff.mpr he)]
        simp
    · rw [show (ems_read (ems_write dev port val) port).1 =
          (if ((ems_write dev port val).ems (emsVpage port)).enabled then
            ((ems_write dev port val).ems (emsVpage port)).page ||| 0x80
           else ((ems_write dev port val).ems (emsVpage port)).page) from by
            simp [ems_read, hbase, hp]]
      rw [ems_write_reg0_invalid dev port val hp hc hpg]
      simp
  · intro hc
    rw [show (ems_read (ems_write dev port val) port).1 =
        (if ((ems_write dev port val).ems (emsVpage port)).enabled then
          ((ems_write dev port val).ems (emsVpage port)).page ||| 0x80
         else ((ems_write dev port val).ems (emsVpage port)).page) from by
          simp [ems_read, hbase, hp]]
    rw [ems_write_reg0_unconfigured dev port val hp hc]
    rw [and_128_eq_ite val]
    by_cases he : ((val &&& 0x80) != 0) = true
    · simp [he]
    · simp [Bool.eq_false_iff.mpr (fun hx => he hx)]

/-- C2 witness: a configured read-after-write on the EMS-5150 (configured at
    init) reflecting the window state, and an unconfigured read-after-write on
    the EV-159 reflecting the requested bit. -/
theorem C2_read_page_select_witness :
    (let dev := isamem_init 3 { size := 256, base := 0x208 } false
     ((ems_read dev 0x208).1 =
       if (dev.ems (emsVpage 0x208)).enabled then (dev.ems (emsVpage 0x208)).page ||| 0x80
       else (dev.ems (emsVpage 0x208)).page) ∧
     (ems_read dev 0x208).2 = dev ∧
     (ems_read (ems_write dev 0x208 0x85) 0x208).1 =
       (0x85 &&& 0x7f) |||
         (if ((ems_write dev 0x208 0x85).ems (emsVpage 0x208)).mapping.enabled then 0x80
          else 0)) ∧
    (let dev0 := isamem_init 10 { size := 512, ems := 1, base := 0x258 } false
     (ems_read (ems_write dev0 0x258 0x85) 0x258).1 =
       (0x85 &&& 0x7f) ||| (0x85 &&& 0x80)) :=
  ⟨⟨(C2_read_page_select (isamem_init 3 { size := 256, base := 0x208 } false)
        0x208 0x85 (by decide)).1,
    (C2_read_page_select (isamem_init 3 { size := 256, base := 0x208 } false)
        0x208 0x85 (by decide)).2.1,
    (C2_read_page_select (isamem_init 3 { size := 256, base := 0x208 } false)
        0x208 0x85 (by decide)).2.2.1 (by decide)⟩,
   (C2_read_page_select (isamem_init 10 { size := 512, ems := 1, base := 0x258 } false)
        0x258 0x85 (by decide)).2.2.2 (by decide)⟩

/-- C3: write-then-read round trip. For any address inside an enabled plain
    region (the conventional `low_mapping` or extended `high_mapping`) a byte
    write followed by a byte read at the same address returns the written
    value, and likewise a word write/read when the wide flag is set; the same
    holds for addresses inside an enabled viewport window through the paged
    handlers (`ems_writeb`/`ems_readb`, `ems_writew`/`ems_readw`). -/
theorem C3_write_read_roundtrip (dev : MemDev) (mp mv : MemMapping) (j : Fin 4)
    (ab aw eb ew v w : Nat)
    (hplain : mp = dev.low_mapping ∨ mp = dev.high_mapping)
    (hpe : mp.enabled = true)
    (hab : mp.base ≤ ab ∧ ab < mp.base + mp.size)
    (haw : mp.base ≤ aw ∧ aw + 1 < mp.base + mp.size)
    (hwide : dev.flag_wide = true)
    (hmv : mv = (dev.ems j).mapping)
    (hve : mv.enabled = true)
    (heb : mv.base ≤ eb ∧ eb < mv.base + mv.size)
    (hew : mv.base ≤ ew ∧ ew + 1 < mv.base + mv.size)
    (hv : v < 256) (hw : w < 65536) :
    ram_readb (ram_writeb dev mp ab v) mp ab = v ∧
    ram_readw (ram_writew dev mp aw w) mp aw = w ∧
    ems_readb (ems_writeb dev mv eb v) mv eb = v ∧
    ems_readw (ems_writew dev mv ew w) mv ew = w := by
  refine ⟨?_, ?_, ?_, ?_⟩
  · simp [ram_readb, ram_writeb, Nat.mod_eq_of_lt hv]
  · simp only [ram_readw, ram_writew]
    have hne : aw - mp.base + 1 ≠ aw - mp.base := by omega
    simp [hne]
    omega
  · simp [ems_readb, ems_writeb, Nat.mod_eq_of_lt hv]
  · simp only [ems_readw, ems_writew]
    have hne : (dev.ems (emsVpage ew)).addrOff + (ew - mv.base) + 1 ≠
        (dev.ems (emsVpage ew)).addrOff + (ew - mv.base) := by omega
    simp [hne]
    omega

/-- C3 witness: concrete round trips on `c3dev`: a byte in the low region, a
    word in the low region, and a byte and a word through enabled viewport 1. -/
theorem C3_write_read_roundtrip_witness :
    ram_readb (ram_writeb c3dev c3dev.low_mapping 0x40010 0xab)
      c3dev.low_mapping 0x40010 = 0xab ∧
    ram_readw (ram_writew c3dev c3dev.low_mapping 0x40abc 0x1234)
      c3dev.low_mapping 0x40abc = 0x1234 ∧
    ems_readb (ems_writeb c3dev ((c3dev.ems 1).mapping) 0xE4123 0xab)
      ((c3dev.ems 1).mapping) 0xE4123 = 0xab ∧
    ems_readw (ems_writew c3dev ((c3dev.ems 1).mapping) 0xE7ffe 0x1234)
      ((c3dev.ems 1).mapping) 0xE7ffe = 0x1234 :=
  C3_write_read_roundtrip c3dev c3dev.low_mapping ((c3dev.ems 1).mapping) 1
    0x40010 0x40abc 0xE4123 0xE7ffe 0xab 0x1234
    (Or.inl rfl) (by decide) (by decide) (by decide) (by decide) rfl (by decide)
    (by decide) (by decide) (by decide) (by decide)

/-- C7: for every viewport index `i < 4` and intra-pair offset `o ∈ {0,1}`,
    an access to port `(base_port + i*16384 + o) % 65536` is decoded back to
    viewport `i` (as `port / 16384`, via `emsVpage`) and register `o`
    (as `(port % 16384) - base_port`), provided the register pair fits below
    the 16 KB decode mask (`base_port + 1 < 16384`, true of all configurable
    base addresses). -/
theorem C7_port_decode (base i o : Nat) (hb : base + 1 < 16384)
    (hi : i < 4) (ho : o < 2) :
    (emsVpage ((base + i * EMS_PGSIZE + o) % 65536)).val = i ∧
    (base + i * EMS_PGSIZE + o) % 65536 % 16384 = base + o ∧
    (base + i * EMS_PGSIZE + o) % 65536 % 16384 - base = o := by
  have hsmall : base + i * EMS_PGSIZE + o < 65536 := by
    unfold EMS_PGSIZE
    omega
  refine ⟨?_, ?_, ?_⟩ <;>
    simp only [emsVpage, EMS_PGSIZE, Nat.mod_eq_of_lt hsmall] at * <;>
    omega

/-- C7 witness: the decode at `base_port = 0x258`, viewport 3, offset 1. -/
theorem C7_port_decode_witness :
    0x258 + 1 < 16384 ∧ 3 < 4 ∧ 1 < 2 ∧
    ((emsVpage ((0x258 + 3 * EMS_PGSIZE + 1) % 65536)).val = 3 ∧
      (0x258 + 3 * EMS_PGSIZE + 1) % 65536 % 16384 = 0x258 + 1 ∧
      (0x258 + 3 * EMS_PGSIZE + 1) % 65536 % 16384 - 0x258 = 1) :=
  ⟨by decide, by decide, by decide,
    C7_port_decode 0x258 3 1 (by decide) (by decide) (by decide)⟩

/-- C8: a write decoded to a viewport's `frame_config` register (intra-pair
    offset 1) stores the value in that viewport's `frame` register; a nonzero
    value sets the board's configured flag, a zero value leaves the flag
    exactly as it was (so it never sets it); and the write changes no
    viewport's `enabled` state, selected page, page address, or mapping — in
    particular it never disables an already-enabled viewport. -/
theorem C8_frame_config_write (dev : MemDev) (port val : Nat) (i : Fin 4)
    (hp : port % 16384 = dev.base_addr + 1) (hv : val < 256) :
    (val ≠ 0 → (ems_write dev port val).flag_config = true) ∧
    (val = 0 → (ems_write dev port val).flag_config = dev.flag_config) ∧
    ((ems_write dev port val).ems i).enabled = (dev.ems i).enabled ∧
    ((ems_write dev port val).ems i).page = (dev.ems i).page ∧
    ((ems_write dev port val).ems i).addrOff = (dev.ems i).addrOff ∧
    ((ems_write dev port val).ems i).mapping = (dev.ems i).mapping ∧
    ((dev.ems i).mapping.enabled = true →
      ((ems_write dev port val).ems i).mapping.enabled = true) ∧
    ((ems_write dev port val).ems (emsVpage port)).frame = val := by
  have hr := ems_write_reg1 dev port val hp
  have hne : ∀ j : Fin 4, j ≠ emsVpage port →
      (ems_write dev port val).ems j = dev.ems j :=
    fun j hj => ems_write_ems_ne dev port val j hj
  have hsame : ((ems_write dev port val).ems i).enabled = (dev.ems i).enabled ∧
      ((ems_write dev port val).ems i).page = (dev.ems i).page ∧
      ((ems_write dev port val).ems i).addrOff = (dev.ems i).addrOff ∧
      ((ems_write dev port val).ems i).mapping = (dev.ems i).mapping := by
    by_cases hi : i = emsVpage port
    · subst hi
      rw [hr.1]
      exact ⟨rfl, rfl, rfl, rfl⟩
    · rw [hne i hi]
      exact ⟨rfl, rfl, rfl, rfl⟩
  refine ⟨?_, ?_, hsame.1, hsame.2.1, hsame.2.2.1, hsame.2.2.2, ?_, ?_⟩
  · intro hv0
    rw [hr.2]
    simp [hv0]
  · intro hv0
    rw [hr.2]
    simp [hv0]
  · intro hen
    rw [hsame.2.2.2]
    exact hen
  · rw [hr.1]

/-- C8 witness: a nonzero `frame_config` write on a concrete enabled-viewport
    state at port `0x259` (`base_port = 0x258`, viewport 0, offset 1). -/
theorem C8_frame_config_write_witness :
    (let dev : MemDev :=
      { base_addr := 0x258, ems_pages := 32,
        ems := fun _ => { enabled := true, page := 5,
                          mapping := { reg := true, enabled := true } } }
     (5 ≠ 0 → (ems_write dev 0x259 5).flag_config = true) ∧
     (5 = 0 → (ems_write dev 0x259 5).flag_config = dev.flag_config) ∧
     ((ems_write dev 0x259 5).ems 0).enabled = (dev.ems 0).enabled ∧
     ((ems_write dev 0x259 5).ems 0).page = (dev.ems 0).page ∧
     ((ems_write dev 0x259 5).ems 0).addrOff = (dev.ems 0).addrOff ∧
     ((ems_write dev 0x259 5).ems 0).mapping = (dev.ems 0).mapping ∧
     ((dev.ems 0).mapping.enabled = true →
       ((ems_write dev 0x259 5).ems 0).mapping.enabled = true) ∧
     ((ems_write dev 0x259 5).ems (emsVpage 0x259)).frame = 5) :=
  C8_frame_config_write _ 0x259 5 0 (by decide) (by decide)

/-- C10: reading a viewport's `frame_config` register (intra-pair offset 1)
    always returns `0xff` — the register is write-only — and the read has no
    side effects (the returned device state is unchanged); in particular this
    holds immediately after an arbitrary write to the same register. -/
theorem C10_frame_config_read (dev : MemDev) (port v : Nat)
    (hp : port % 16384 = dev.base_addr + 1) :
    (ems_read dev port).1 = 0xff ∧
    (ems_read dev port).2 = dev ∧
    (ems_read (ems_write dev port v) port).1 = 0xff := by
  have h0 : ¬ port % 16384 = dev.base_addr := by omega
  have hbase : (ems_write dev port v).base_addr = dev.base_addr := by
    simp [ems_write, h0, hp]
  refine ⟨?_, ?_, ?_⟩ <;> simp [ems_read, h0, hp, hbase]

/-- C10 witness: reading `frame_config` of viewport 0 at port `0x259` after
    writing `0x42` to it. -/
theorem C10_frame_config_read_witness :
    (let dev : MemDev := { base_addr := 0x258 }
     (ems_read dev 0x259).1 = 0xff ∧
     (ems_read dev 0x259).2 = dev ∧
     (ems_read (ems_write dev 0x259 0x42) 0x259).1 = 0xff) :=
  C10_frame_config_read _ 0x259 0x42 (by decide)

/-- C5 (Scenario A): an EV-159 with `total_size_KB = 1024`,
    `start_addr_KB = 256`, EMS enabled, on a system without extended-bus
    support, with contiguous length 384 KB (the unique length for which the
    carving is exactly the conventional extension, as the scenario describes):
    the conventional extension region `[262144, 655360)` (384 KB) is registered
    as enabled plain RAM, no extended-memory region is registered, and the
    remaining 640 KB become the EMS pool with `ems_pages = 40`. -/
theorem C5_scenario_A :
    (let dev := isamem_init 10 cfgScenarioA false
     dev.low_mapping.reg = true ∧
     dev.low_mapping.enabled = true ∧
     dev.low_mapping.base = 262144 ∧
     dev.low_mapping.base + dev.low_mapping.size = 655360 ∧
     dev.high_mapping.reg = false ∧
     dev.flag_ems = true ∧
     dev.ems_size = 640 ∧
     dev.ems_start = 393216 ∧
     dev.ems_pages = 40) := by
  decide

/-- C6 (Scenario B): an EV-159 with `total_size_KB = 512`, `start_addr_KB = 0`,
    EMS enabled, `frame_addr = 0xE0000`: no conventional, remap-window, or
    extended carving happens, the whole 512 KB buffer becomes the EMS pool with
    `ems_pages = 32`, and four 16 KB viewport windows are registered at
    `0xE0000`, `0xE4000`, `0xE8000`, `0xEC000`, all initially disabled. -/
theorem C6_scenario_B :
    (let dev := isamem_init 10 { size := 512, ems := 1, base := 0x258 } false
     dev.low_mapping.reg = false ∧
     dev.high_mapping.reg = false ∧
     dev.remapped.reg = false ∧
     dev.flag_ems = true ∧
     dev.frame_addr = 0xE0000 ∧
     dev.ems_start = 0 ∧
     dev.ems_size = 512 ∧
     dev.ems_pages = 32 ∧
     (dev.ems 0).mapping =
       { reg := true, enabled := false, base := 0xE0000, size := 16384, exec := 0 } ∧
     (dev.ems 1).mapping =
       { reg := true, enabled := false, base := 0xE4000, size := 16384, exec := 0 } ∧
     (dev.ems 2).mapping =
       { reg := true, enabled := false, base := 0xE8000, size := 16384, exec := 0 } ∧
     (dev.ems 3).mapping =
       { reg := true, enabled := false, base := 0xEC000, size := 16384, exec := 0 }) := by
  decide

/-- C4 counterexample: EV-159, `size = 2048 KB`, `start = 128 KB`,
    `length = 1024 KB`, EMS on, no extended bus. Carving consumes only 896 KB
    of the reserved 1024 KB contiguous amount (512 KB conventional + 384 KB
    remap window; no extended region without AT support), so the bytes
    remaining after carving are `2048 KB − 896 KB = 1152 KB` and the claim
    predicts `⌊min(1152 KB, 2048 KB)/16 KB⌋ = 72` pages; the code computed the
    pool as `2048 KB − 1024 KB` and reports `ems_pages = 64`. -/
theorem C4_pool_counterexample :
    (let dev := isamem_init 10
        { size := 2048, start := 128, length := 1024, ems := 1, base := 0x258 } false
     dev.flag_ems = true ∧
     dev.ems_start = 917504 ∧
     dev.ems_pages = 64 ∧
     min (poolBytesSpec dev) EMS_MAXSIZE / EMS_PGSIZE = 72 ∧
     dev.ems_pages ≠ min (poolBytesSpec dev) EMS_MAXSIZE / EMS_PGSIZE) := by
  decide

/-- C4 (amended): with EMS enabled, `ems_pages` equals
    `⌊min(pool_bytes, 2048 KB)/16384⌋` where `pool_bytes` is the `uint32_t`
    counter left after reserving the whole configured contiguous amount `tot`
    up front (`total_bytes - tot_bytes` when `start_addr > 0` and `tot > 0`,
    else the whole buffer, as `reservedPoolBytes`); when `start_addr = 0` the
    whole buffer up to the cap becomes the pool; and on extended-bus systems
    (where carving always consumes all of `tot`, so the reservation equals the
    bytes remaining after carving) the claim's own formula
    `⌊min(total_bytes − ems_start, 2048 KB)/16384⌋` also holds, provided the
    contiguous amount fits the board (`tot ≤ total_size`). -/
theorem C4_ems_pages_formula (board : Nat) (cfg : BoardConfig) (atBus : Bool)
    (hems : (isamem_init board cfg atBus).flag_ems = true) :
    (isamem_init board cfg atBus).ems_pages =
      min (reservedPoolBytes board cfg) EMS_MAXSIZE / EMS_PGSIZE ∧
    ((isamem_init board cfg atBus).start_addr = 0 →
      (isamem_init board cfg atBus).ems_start = 0 ∧
      (isamem_init board cfg atBus).ems_pages =
        min ((isamem_init board cfg atBus).total_size * 1024) EMS_MAXSIZE /
          EMS_PGSIZE) ∧
    (atBus = true →
      (boardSetup board cfg).2 ≤ (boardSetup board cfg).1.total_size →
      (isamem_init board cfg atBus).ems_pages =
        min (poolBytesSpec (isamem_init board cfg atBus)) EMS_MAXSIZE /
          EMS_PGSIZE) := by
  unfold isamem_init at hems ⊢
  obtain ⟨hi1, hi2, hi3, hi4, hi5, hi6, hi7, hi8, hi9⟩ :=
    initialState_facts board cfg atBus
  obtain ⟨hc1, hc2, hc3, hc4, hc5, hc6, hc7⟩ :=
    carveConv_facts (initialState board cfg atBus)
  obtain ⟨he1, he2, he3, he4, he5, he6, he7, he8, he9⟩ :=
    carveExt_facts atBus (carveConv (initialState board cfg atBus))
  obtain ⟨hs1, hs2, hs3, hs4, hs5⟩ :=
    emsSetup_facts (carveExt atBus (carveConv (initialState board cfg atBus)))
  rw [hs3] at hems
  obtain ⟨hpages, hstart⟩ := hs4 hems
  have hszeq : (boardSetup board cfg).1.total_size <<< 10 =
      (boardSetup board cfg).1.total_size * 1024 := by
    rw [Nat.shiftLeft_eq]
  have hk : (carveConv (initialState board cfg atBus)).k =
      reservedPoolBytes board cfg := by
    by_cases htr : 0 < (initialState board cfg atBus).addr ∧
        0 < (initialState board cfg atBus).tot
    · rw [(hc7 htr).1, hi6, hi7]
      simp only [reservedPoolBytes]
      rw [if_pos ⟨by rw [← hi8]; exact htr.1, by rw [← hi7]; exact htr.2⟩]
    · rw [hc6 htr, hi6]
      simp only [reservedPoolBytes]
      rw [if_neg (fun hp => htr ⟨by rw [hi8]; exact hp.1, by rw [hi7]; exact hp.2⟩)]
  refine ⟨by rw [hpages, he1, hk], ?_, ?_⟩
  · intro h0
    rw [hs2, he3, hc2, hi2] at h0
    have haddr0 : (initialState board cfg atBus).addr = 0 := by rw [hi8, h0]
    have htr : ¬ (0 < (initialState board cfg atBus).addr ∧
        0 < (initialState board cfg atBus).tot) := by
      rw [haddr0]
      omega
    have hcc := hc6 htr
    have hee := he9 (fun hp => by
      rw [hcc] at hp
      exact htr ⟨hp.2.1, hp.2.2⟩)
    have htotal0 : (emsSetup (carveExt atBus (carveConv
        (initialState board cfg atBus)))).total_size =
        (boardSetup board cfg).1.total_size := by
      rw [hs1, he2, hc1, hi1]
    refine ⟨by rw [hstart, hee, hcc, hi9], ?_⟩
    rw [hpages, he1, htotal0, hcc, hi6, hszeq]
  · intro hb htot
    have hlt := boardSetup_total_lt board cfg
    have htotv : (initialState board cfg atBus).tot = (boardSetup board cfg).2 * 1024 := by
      rw [hi7, Nat.shiftLeft_eq]
      have h2ten : (2 : Nat) ^ 10 = 1024 := by norm_num
      rw [h2ten]
      omega
    have hkv : (initialState board cfg atBus).k =
        (boardSetup board cfg).1.total_size * 1024 := by
      rw [hi6, hszeq]
    have hps : poolBytesSpec
        (emsSetup (carveExt atBus (carveConv (initialState board cfg atBus)))) =
        (boardSetup board cfg).1.total_size * 1024 -
          (carveExt atBus (carveConv (initialState board cfg atBus))).ptr := by
      unfold poolBytesSpec
      rw [hstart, hs1, he2, hc1, hi1]
    rw [hpages, hps, he1]
    by_cases htr : 0 < (initialState board cfg atBus).addr ∧
        0 < (initialState board cfg atBus).tot
    · have hsum := (hc7 htr).2.1
      have haddr1 : 0 < (carveConv (initialState board cfg atBus)).addr :=
        Nat.lt_of_lt_of_le htr.1 (hc7 htr).2.2
      have hptr := he8 hb haddr1
      have hkf := (hc7 htr).1
      rw [hptr, hsum, hi9, htotv, hkf, hkv, htotv]
      have hc32 : (boardSetup board cfg).2 * 1024 < 4294967296 := by omega
      have hle : (boardSetup board cfg).2 * 1024 ≤
          (boardSetup board cfg).1.total_size * 1024 := by omega
      congr 2
      omega
    · have hcc := hc6 htr
      have hee := he9 (fun hp => by
        rw [hcc] at hp
        exact htr ⟨hp.2.1, hp.2.2⟩)
      rw [hee, hcc, hi9, hkv]
      simp

/-- C4 witness: the amended formula on an EV-159 on an AT system with
    `start = 0` (whole 512 KB buffer becomes the pool, 32 pages), and on an
    EV-159 on an AT system with `start = 256 KB`, `length = 384 KB`
    (640 KB pool, 40 pages), where the claim's own `pool_bytes` formula holds
    as well. -/
theorem C4_ems_pages_formula_witness :
    ((isamem_init 10 { size := 512, ems := 1, base := 0x258 } true).ems_pages =
      min (reservedPoolBytes 10 { size := 512, ems := 1, base := 0x258 })
        EMS_MAXSIZE / EMS_PGSIZE ∧
     (isamem_init 10 { size := 512, ems := 1, base := 0x258 } true).ems_start = 0 ∧
     (isamem_init 10 { size := 512, ems := 1, base := 0x258 } true).ems_pages =
      min ((isamem_init 10 { size := 512, ems := 1, base := 0x258 } true).total_size
          * 1024) EMS_MAXSIZE / EMS_PGSIZE) ∧
    (isamem_init 10 cfgScenarioA true).ems_pages =
      min (poolBytesSpec (isamem_init 10 cfgScenarioA true))
        EMS_MAXSIZE / EMS_PGSIZE :=
  ⟨⟨(C4_ems_pages_formula 10 { size := 512, ems := 1, base := 0x258 } true
      (by decide)).1,
    (C4_ems_pages_formula 10 { size := 512, ems := 1, base := 0x258 } true
      (by decide)).2.1 (by decide)⟩,
   (C4_ems_pages_formula 10 cfgScenarioA true (by decide)).2.2 rfl (by decide)⟩

/-- C9 counterexample: EV-159 with `size = 128 KB` but `length = 256 KB` and
    `start = 128 KB`: the `uint32_t` subtraction `k -= tot` wraps around, the
    pool is capped at 2048 KB (128 pages) starting at offset 256 KB, and
    `ems_start + ems_pages * 16384 = 2359296` far exceeds the 131072-byte RAM
    buffer. -/
theorem C9_pool_bound_counterexample :
    (let dev := isamem_init 10
        { size := 128, start := 128, length := 256, ems := 1, base := 0x258 } false
     dev.ems_start = 262144 ∧
     dev.ems_pages = 128 ∧
     dev.total_size * 1024 = 131072 ∧
     ¬ (dev.ems_start + dev.ems_pages * EMS_PGSIZE ≤ dev.total_size * 1024)) := by
  decide

/-- C9 (amended): whenever the configured contiguous amount fits the board
    (`tot ≤ total_size`, in KB), the EMS pool recorded for page-level
    addressing lies entirely within the allocated RAM buffer:
    `ems_start + ems_pages * 16384 ≤ total_size * 1024`. -/
theorem C9_pool_within_ram (board : Nat) (cfg : BoardConfig) (atBus : Bool)
    (htot : (boardSetup board cfg).2 ≤ (boardSetup board cfg).1.total_size) :
    (isamem_init board cfg atBus).ems_start +
      (isamem_init board cfg atBus).ems_pages * EMS_PGSIZE ≤
      (isamem_init board cfg atBus).total_size * 1024 := by
  unfold isamem_init
  obtain ⟨hi1, hi2, hi3, hi4, hi5, hi6, hi7, hi8, hi9⟩ :=
    initialState_facts board cfg atBus
  obtain ⟨hc1, hc2, hc3, hc4, hc5, hc6, hc7⟩ :=
    carveConv_facts (initialState board cfg atBus)
  obtain ⟨he1, he2, he3, he4, he5, he6, he7, he8, he9⟩ :=
    carveExt_facts atBus (carveConv (initialState board cfg atBus))
  obtain ⟨hs1, hs2, hs3, hs4, hs5⟩ :=
    emsSetup_facts (carveExt atBus (carveConv (initialState board cfg atBus)))
  have hlt := boardSetup_total_lt board cfg
  have hszeq : (boardSetup board cfg).1.total_size <<< 10 =
      (boardSetup board cfg).1.total_size * 1024 := by
    rw [Nat.shiftLeft_eq]
  have htotv : (initialState board cfg atBus).tot =
      (boardSetup board cfg).2 * 1024 := by
    rw [hi7, Nat.shiftLeft_eq]
    have h2ten : (2 : Nat) ^ 10 = 1024 := by norm_num
    rw [h2ten]
    omega
  have hkv : (initialState board cfg atBus).k =
      (boardSetup board cfg).1.total_size * 1024 := by
    rw [hi6, hszeq]
  rw [hs1, he2, hc1, hi1]
  by_cases hf :
      (carveExt atBus (carveConv (initialState board cfg atBus))).dev.flag_ems = true
  · obtain ⟨hpages, hstart⟩ := hs4 hf
    rw [hpages, hstart, he1]
    by_cases htr : 0 < (initialState board cfg atBus).addr ∧
        0 < (initialState board cfg atBus).tot
    · have hsum := (hc7 htr).2.1
      have hkf := (hc7 htr).1
      have hp7 := he7
      simp only [EMS_PGSIZE, EMS_MAXSIZE] at *
      omega
    · have hcc := hc6 htr
      have hee := he9 (fun hp => by
        rw [hcc] at hp
        exact htr ⟨hp.2.1, hp.2.2⟩)
      rw [hee, hcc]
      simp only [EMS_PGSIZE, EMS_MAXSIZE] at *
      omega
  · obtain ⟨hpg, hst⟩ := hs5 (Bool.eq_false_iff.mpr hf)
    rw [hpg, hst, he6, hc5, hi5, he5, hc4, hi4]
    simp

/-- C9 witness: the amended bound at Scenario A's configuration
    (`size = 1024 KB`, `start = 256 KB`, `length = 384 KB`, EMS on, no AT). -/
theorem C9_pool_within_ram_witness :
    (isamem_init 10 cfgScenarioA false).ems_start +
      (isamem_init 10 cfgScenarioA false).ems_pages * EMS_PGSIZE ≤
      (isamem_init 10 cfgScenarioA false).total_size * 1024 :=
  C9_pool_within_ram 10 cfgScenarioA false (by decide)

end Isamem

